import Mathlib

/-!
Verification development for the vscode-azurefunctions extension sources.

The TypeScript sources are shallowly embedded below: pure computations become
Lean functions; event-driven promise logic becomes functions over explicit,
time-ordered event traces; JavaScript runtime behaviour (truthiness, object
versus string comparison) is embedded explicitly where the source relies on it.
-/

namespace AzFunc

/-! ### String helpers (JavaScript `toLowerCase` / `includes`) -/

/-- Lower-case every character of a string, embedding `String.prototype.toLowerCase`
for the ASCII names the sources compare. -/
def lowerStr (s : String) : String := String.mk (s.toList.map Char.toLower)

/-- Whether the pattern occurs at the head of the text. -/
def matchAt : List Char → List Char → Bool
  | [], _ => true
  | _ :: _, [] => false
  | a :: as, b :: bs => a == b && matchAt as bs

/-- Whether the pattern occurs anywhere in the text, embedding
`String.prototype.includes`. -/
def containsSub (pat : List Char) : List Char → Bool
  | [] => matchAt pat []
  | b :: bs => matchAt pat (b :: bs) || containsSub pat bs

/-! ### Process-discovery helpers (`src/commands/pickFuncProcess.ts`) -/

/-- A node of the tree reported by the `windows-process-tree` module:
`{ pid, name, children }` (memory and commandLine are never read). -/
inductive ProcTreeNode where
  | mk (pid : Nat) (name : String) (children : List ProcTreeNode)

def ProcTreeNode.pid : ProcTreeNode → Nat
  | .mk p _ _ => p

def ProcTreeNode.name : ProcTreeNode → String
  | .mk _ n _ => n

/-- The descent loop `while (psTree.children.length > 0) psTree = psTree.children[0]`
from `getInnermostWindowsPid`: follow first children down to the first-child leaf. -/
def firstChildLeaf : ProcTreeNode → ProcTreeNode
  | .mk p n [] => .mk p n []
  | .mk _ _ (c :: _) => firstChildLeaf c

/-- The test `psTree.name.toLowerCase().includes('func')`. -/
def nameHasFunc (s : String) : Bool :=
  containsSub ("func".toList) ((lowerStr s).toList)

/-- Possible ways `getInnermostWindowsPid` finishes: return the found pid as a
string, throw the "Functions host is no longer running" error, or throw the
caller-provided timeout error. -/
inductive WinPidResult where
  | found (pid : String)
  | hostStopped
  | timedOut
deriving DecidableEq, Repr

/-- The polling loop of `getInnermostWindowsPid`.  `maxTime` embeds
`Date.now() + timeoutInSeconds * 1000`.  Each list element is one loop
iteration's observation: the value of `Date.now()` at the loop guard and the
tree (if any) delivered by `windowsProcessTree.getProcessTree`; between
iterations the source sleeps 500 ms, which only advances the clock values.
`none` means the finite trace was exhausted while the loop would still poll. -/
def getInnermostWindowsPid (maxTime : Nat) : List (Nat × Option ProcTreeNode) → Option WinPidResult
  | [] => none
  | (now, fetched) :: rest =>
    if now < maxTime then
      match fetched with
      | none => some .hostStopped
      | some t =>
        let leaf := firstChildLeaf t
        if nameHasFunc leaf.name then some (.found (toString leaf.pid))
        else getInnermostWindowsPid maxTime rest
    else some .timedOut

/-- A poll observation on which the loop neither returns nor throws: it is in
time, the fetch produced a tree, and the first-child leaf's name lacks "func". -/
def pollContinues (maxTime : Nat) (p : Nat × Option ProcTreeNode) : Bool :=
  p.1 < maxTime &&
    (match p.2 with
     | some t => !nameHasFunc (firstChildLeaf t).name
     | none => false)

/-- An entry of the `ps-tree` result for a unix process (only `PID` is read). -/
structure PSEntry where
  PID : String
deriving DecidableEq, Repr

/-- `getInnermostUnixPid`: the `ps-tree` callback either rejects with the
reported error, or pops the last child and resolves with its `PID`, falling
back to the input pid when the child list is empty. -/
def getInnermostUnixPid (pid : String) (res : Except String (List PSEntry)) : Except String String :=
  match res with
  | .error e => .error e
  | .ok children =>
    match children.getLast? with
    | some child => .ok child.PID
    | none => .ok pid

/-! ### The pre-deploy completion wait (`src/commands/deploy.ts`, `runPreDeployTask`) -/

/-- A `vscode.TaskProcessEndEvent` as read by the sources: which task execution
ended (identified here by a reference number) and its exit code. -/
structure TaskProcessEndEvent where
  taskRef : Nat
  exitCode : Int
deriving DecidableEq, Repr

/-- The promise built in `runPreDeployTask` after `executeTask`: its only
settling path is the `onDidEndTaskProcess` listener, which fires when
`e.execution.task === preDeployTask`, resolving on exit code 0 and rejecting
otherwise.  The source installs no timer for this wait.  Evaluated over the
time-ordered trace of end events, `some true` is resolution, `some false` is
rejection, and `none` means the promise is still pending after the trace. -/
def preDeployWaitOutcome (preDeployRef : Nat) : List TaskProcessEndEvent → Option Bool
  | [] => none
  | e :: rest =>
    if e.taskRef == preDeployRef then some (e.exitCode == 0)
    else preDeployWaitOutcome preDeployRef rest

/-! ### The functions-host start wait (`src/commands/pickFuncProcess.ts`, `startFuncTask`) -/

/-- The task-process events observed while `startFuncTask` waits: a
`TaskProcessStartEvent` (with whether `isFuncHostTask(e.execution.task)` holds
and the process id) or a `TaskProcessEndEvent` (task name and exit code). -/
inductive FuncEvent where
  | procStart (isFuncHost : Bool) (processId : Nat)
  | procEnd (taskName : String) (exitCode : Int)
deriving DecidableEq, Repr

/-- How the `waitForStartPromise` of `startFuncTask` settles: resolve with the
host process id, reject with the "task failed" error naming the offending task
and exit code, or reject with the caller's timeout error. -/
inductive StartOutcome where
  | started (pid : String)
  | taskFailed (taskName : String) (exitCode : Int)
  | timedOut
deriving DecidableEq, Repr

/-- The race inside `startFuncTask`: a listener resolving with
`e.processId.toString()` at the first process-start event of a func host task,
a listener rejecting at the first process-end event of any task with nonzero
exit code, and `setTimeout(..., timeoutInSeconds * 1000)` rejecting with the
timeout error.  The first settle wins.  The trace lists the events in time
order; an event stamped at or after the timer's deadline loses the race to the
timer, and an exhausted trace means no further event fired before the timer. -/
def startFuncTask (timeoutInSeconds : Nat) : List (Nat × FuncEvent) → StartOutcome
  | [] => .timedOut
  | (t, e) :: rest =>
    if t < timeoutInSeconds * 1000 then
      match e with
      | .procStart isHost pid =>
        if isHost then .started (toString pid) else startFuncTask timeoutInSeconds rest
      | .procEnd name code =>
        if code != 0 then .taskFailed name code else startFuncTask timeoutInSeconds rest
    else .timedOut

/-- An event that settles nothing: in time, but either a process start of a
non-host task or a process end with exit code 0. -/
def eventIgnored (timeoutInSeconds : Nat) (p : Nat × FuncEvent) : Bool :=
  p.1 < timeoutInSeconds * 1000 &&
    (match p.2 with
     | .procStart isHost _ => !isHost
     | .procEnd _ code => code == 0)

/-! ### Project languages and runtimes (`src/constants.ts`, referenced throughout) -/

/-- The project languages the embedded sources branch on.  The enum lives in
`src/constants.ts` (not part of the provided sources); only the constructors
the provided files mention are needed. -/
inductive ProjectLanguage where
  | CSharp
  | JavaScript
  | Java
  | Python
deriving DecidableEq, Repr

/-- Functions runtimes `~1` / `~2` from `src/constants.ts`. -/
inductive ProjectRuntime where
  | v1
  | v2
deriving DecidableEq, Repr

/-- Modelled from the spec: `publishTaskId` from `src/constants.ts`, which is
not among the provided sources; an opaque task-name constant. -/
def publishTaskId : String := "publish"

/-- Modelled from the spec: `extInstallTaskName` from `src/constants.ts`
(the label of the "func: extensions install" task). -/
def extInstallTaskName : String := "func: extensions install"

/-- Modelled from the spec: `funcPackId` from `src/constants.ts` (the label of
the "func pack" task used as the Python pre-deploy task). -/
def funcPackId : String := "funcPack"

/-! ### The task provider (`src/FuncTaskProvider.ts`) -/

/-- A `vscode.WorkspaceFolder` as consumed here: only its filesystem path. -/
structure WorkspaceFolder where
  fsPath : String
deriving DecidableEq, Repr

/-- The `vscode.Task` built by `FuncTaskProvider.provideTasks`: the task
definition fields, the owning folder, name, source, the `ProcessExecution`
(command, args, env), problem matcher and background flag. -/
structure TaskDescriptor where
  defType : String
  defCommand : String
  defPort : Nat
  scopePath : String
  name : String
  source : String
  execCommand : String
  execArgs : List String
  execEnv : List (String × String)
  problemMatcher : String
  isBackground : Bool
deriving DecidableEq, Repr

/-- The host-start task `FuncTaskProvider.provideTasks` pushes for a folder:
definition `{ type: 'func', command: 'host start', port: 5858 }`, name
"host start", source "func", a `ProcessExecution` of `func host start` whose
env injects `--inspect=` with the folder's `nodeDebugPort` setting, problem
matcher `$func-watch`, background.  In the source the JavaScript, Java and
CSharp switch branches all construct this same execution. -/
def hostStartTaskFor (folder : WorkspaceFolder) (nodeDebugPort : String) : TaskDescriptor :=
  { defType := "func"
    defCommand := "host start"
    defPort := 5858
    scopePath := folder.fsPath
    name := "host start"
    source := "func"
    execCommand := "func"
    execArgs := ["host", "start"]
    execEnv := [("languageWorkers:node:arguments", "--inspect=" ++ nodeDebugPort)]
    problemMatcher := "$func-watch"
    isBackground := true }

/-- `FuncTaskProvider.provideTasks` from `src/FuncTaskProvider.ts`:
`workspace.workspaceFolders` may be absent; for each folder the detected
project language (checked against `undefined`) selects the switch branch —
JavaScript, Java and CSharp each push the host-start task, the default branch
continues with no task.  `detect` embeds `getProjectLanguage`, `nodeDebugPort`
embeds `getFuncExtensionSetting('nodeDebugPort', folder)`.  The loop body — the
tasks one folder pushes — is factored out as `provideTasksFolderCase`. -/
def provideTasksFolderCase (detect : WorkspaceFolder → Option ProjectLanguage)
    (nodeDebugPort : WorkspaceFolder → String) (folder : WorkspaceFolder) : List TaskDescriptor :=
  match detect folder with
  | some lang =>
    match lang with
    | .JavaScript => [hostStartTaskFor folder (nodeDebugPort folder)]
    | .Java => [hostStartTaskFor folder (nodeDebugPort folder)]
    | .CSharp => [hostStartTaskFor folder (nodeDebugPort folder)]
    | _ => []
  | none => []

def provideTasks (folders : Option (List WorkspaceFolder))
    (detect : WorkspaceFolder → Option ProjectLanguage)
    (nodeDebugPort : WorkspaceFolder → String) : List TaskDescriptor :=
  match folders with
  | none => []
  | some fs => fs.flatMap (provideTasksFolderCase detect nodeDebugPort)

/-- Whether an emitted task list contains a CLI install task, i.e. a task whose
execution runs `func extensions install`. -/
def hasInstallTask (ts : List TaskDescriptor) : Bool :=
  ts.any fun t => t.execArgs == ["extensions", "install"]

/-- Definition following the amended claim's words: the contribution of one
workspace folder — exactly one host-start task when the detected language is
JavaScript, Java or CSharp, and nothing otherwise. -/
def folderContribution (detect : WorkspaceFolder → Option ProjectLanguage)
    (nodeDebugPort : WorkspaceFolder → String) (folder : WorkspaceFolder) : List TaskDescriptor :=
  if detect folder == some .JavaScript || detect folder == some .Java
      || detect folder == some .CSharp then
    [hostStartTaskFor folder (nodeDebugPort folder)]
  else []

/-! ### The deploy command (`src/commands/deploy.ts`) -/

/-- `ScmType.LocalGit` from `src/constants.ts`. -/
def scmTypeLocalGit : String := "LocalGit"

/-- `ScmType.GitHub` from `src/constants.ts`. -/
def scmTypeGitHub : String := "GitHub"

/-- The site configuration returned by `client.getSiteConfig()`; only its
`scmType` field is read by `deploy`. -/
structure SiteConfig where
  scmType : String
deriving DecidableEq, Repr

/-- The conjunct `siteConfig !== ScmType.GitHub` of `deploy`: in JavaScript it
compares the `SiteConfigResource` object itself (not `siteConfig.scmType`) with
the string `'GitHub'`, and an object is never strictly equal to a string, so
this conjunct is constantly true. -/
def siteConfigNeqGitHubString (_sc : SiteConfig) : Bool := true

/-- `const isZipDeploy = siteConfig.scmType !== ScmType.LocalGit && siteConfig !== ScmType.GitHub`. -/
def isZipDeploy (sc : SiteConfig) : Bool :=
  (sc.scmType != scmTypeLocalGit) && siteConfigNeqGitHubString sc

/-- Definition following the claim's words: a zip deploy is one whose site
`scmType` is neither `LocalGit` nor `GitHub`. -/
def isZipDeploySpec (sc : SiteConfig) : Bool :=
  (sc.scmType != scmTypeLocalGit) && (sc.scmType != scmTypeGitHub)

/-- `const confirmDeployment = !newNodes.some(newNode => newNode.fullId === node.fullId)`:
the destructive-deployment prompt is stifled when the picked node is among the
nodes created during the command's own tree-item pick. -/
def confirmDeployment (newNodeIds : List String) (nodeId : String) : Bool :=
  !(newNodeIds.any fun i => i == nodeId)

/-- The guard `if (confirmDeployment && isZipDeploy)` around the modal
destructive-deployment warning in `deploy`. -/
def showsConfirmPrompt (newNodeIds : List String) (nodeId : String) (sc : SiteConfig) : Bool :=
  confirmDeployment newNodeIds nodeId && isZipDeploy sc

/-- Definition following the claim's words for the prompt condition: the
deployment is a zip deploy (per `isZipDeploySpec`) and the target node was not
among the newly created nodes. -/
def showsConfirmPromptSpec (newNodeIds : List String) (nodeId : String) (sc : SiteConfig) : Bool :=
  confirmDeployment newNodeIds nodeId && isZipDeploySpec sc

/-- Modelled from the spec: `isPathEqual` from `src/utils/fs.ts`, which is not
among the provided sources — equality of filesystem paths, modelled on paths
as component lists. -/
def isPathEqual (a b : List String) : Bool := a == b

/-- Modelled from the spec: `isSubpath` from `src/utils/fs.ts`, which is not
among the provided sources — whether the second path lies strictly below the
first, modelled as proper component-prefix. -/
def isSubpath (parent child : List String) : Bool :=
  parent.isPrefixOf child && parent != child

/-- A `vscode.Task` as inspected by `runPreDeployTask`: its name and, when the
task has a workspace-folder scope with a uri, that folder's path. -/
structure VTask where
  name : String
  scopePath : Option (List String)
deriving DecidableEq, Repr

/-- The search loop of `runPreDeployTask` over `vscode.tasks.fetchTasks()`:
the first task whose lower-cased name equals the lower-cased wanted name and
whose workspace-folder scope path equals the deploy path or is an ancestor of
it (`isPathEqual || isSubpath`). -/
def findPreDeployTask (taskName : String) (deployFsPath : List String) (tasks : List VTask) : Option VTask :=
  tasks.find? fun t =>
    lowerStr t.name == lowerStr taskName &&
      (match t.scopePath with
       | some p => isPathEqual p deployFsPath || isSubpath p deployFsPath
       | none => false)

/-- How `runPreDeployTask` finishes: return early for a non-zip deploy (warning
only when a setting was ignored), return because no pre-deploy task is needed
for the language, run the found task and resolve or reject on its exit code,
throw the "Did not find preDeploy task" error, or log the not-found warning and
continue. -/
inductive PreDeployResult where
  | skippedNonZip
  | notNeeded
  | taskSucceeded (t : VTask)
  | taskRejected (t : VTask) (exitCode : Int)
  | noTaskErrorThrown
  | noTaskWarned
deriving DecidableEq, Repr

/-- The language switch of `runPreDeployTask` choosing a default task name when
the `preDeployTask` setting is absent: CSharp publishes, JavaScript installs
extensions (but only on runtime v2 — v1 returns with no task), Python packs,
and every other language needs no pre-deploy task. -/
def inferTaskName (language : ProjectLanguage) (runtime : ProjectRuntime) : Option String :=
  match language with
  | .CSharp => some publishTaskId
  | .JavaScript => if runtime == .v1 then none else some extInstallTaskName
  | .Python => some funcPackId
  | .Java => none

/-- `runPreDeployTask` from `src/commands/deploy.ts` as a function of its
environment: the raw `preDeployTask` setting (JavaScript truthiness makes an
empty string count as unset), whether this is a zip deploy, the project
language and runtime, the fetched task list, the deploy path, and the exit
code each task would end with if executed. -/
def runPreDeployTask (settingRaw : Option String) (isZip : Bool)
    (language : ProjectLanguage) (runtime : ProjectRuntime)
    (tasks : List VTask) (deployFsPath : List String) (exitCode : VTask → Int) : PreDeployResult :=
  let settingTaskName : Option String :=
    match settingRaw with
    | some s => if s == "" then none else some s
    | none => none
  if !isZip then .skippedNonZip
  else
    let chosen : Option String :=
      match settingTaskName with
      | some s => some s
      | none => inferTaskName language runtime
    match chosen with
    | none => .notNeeded
    | some taskName =>
      match findPreDeployTask taskName deployFsPath tasks with
      | some t => if exitCode t == 0 then .taskSucceeded t else .taskRejected t (exitCode t)
      | none => if settingTaskName.isSome then .noTaskErrorThrown else .noTaskWarned

/-- The cloud control-plane calls `deploy` makes inside
`runWithTemporaryDescription`: `client.stop()`, `appservice.deploy(...)`
(the upload), `client.start()`. -/
inductive CloudAction where
  | stopApp
  | upload
  | startApp
deriving DecidableEq, Repr

/-- The try/finally body of `deploy`'s `runWithTemporaryDescription` callback:
for Java the app is stopped before the upload and — because `client.start()`
sits in the `finally` block — started again even when `appservice.deploy`
throws; no other language stops or starts the app.  Returns the cloud-action
trace in order and whether the callback completed without error. -/
def deployCore (language : ProjectLanguage) (uploadOk : Bool) : List CloudAction × Bool :=
  let pre := if language == .Java then [CloudAction.stopApp] else []
  let post := if language == .Java then [CloudAction.startApp] else []
  (pre ++ [CloudAction.upload] ++ post, uploadOk)

/-- The sequencing of `deploy` after the confirmation prompt: an exception from
`runPreDeployTask` (task rejected or not found while configured) propagates and
aborts the command before `runWithTemporaryDescription`, so no cloud action is
performed; otherwise the upload body runs. -/
def deployAfterConfirm (pre : PreDeployResult) (language : ProjectLanguage)
    (uploadOk : Bool) : List CloudAction × Bool :=
  match pre with
  | .noTaskErrorThrown => ([], false)
  | .taskRejected _ _ => ([], false)
  | _ => deployCore language uploadOk

/-! ### The JavaScript project creator (`src/commands/createNewProject/JavaScriptProjectCreator.ts`) -/

/-- `export const funcNodeDebugArgs: string = '--inspect=5858'`. -/
def funcNodeDebugArgs : String := "--inspect=5858"

/-- `export const funcNodeDebugEnvVar: string = 'languageWorkers__node__arguments'`. -/
def funcNodeDebugEnvVar : String := "languageWorkers__node__arguments"

/-- Modelled from the spec: `hostStartTaskName` from `src/constants.ts` (the
label of the "func: host start" task referenced as `preLaunchTask`). -/
def hostStartTaskName : String := "func: host start"

/-- One entry of the `configurations` array of a generated `launch.json`. -/
structure LaunchConfig where
  name : String
  cfgType : String
  request : String
  port : Nat
  preLaunchTask : String
deriving DecidableEq, Repr

/-- The `configurations` of `JavaScriptProjectCreator.getLaunchJson`: a single
node attach configuration on port 5858 with the host-start pre-launch task. -/
def jsGetLaunchJsonConfigs : List LaunchConfig :=
  [{ name := "Attach to JavaScript Functions"
     cfgType := "node"
     request := "attach"
     port := 5858
     preLaunchTask := hostStartTaskName }]

/-! ### The variant task provider (`src/unnamed/part_000`, `getHostStartTask`) -/

namespace VariantProvider

/-- The per-language default debug port of `getHostStartTask` in the unnamed
task-provider source: `port = port || 9091 / 5858 / 5005`; the default switch
branch sets no port. -/
def hostStartPort (language : Option ProjectLanguage) : Option Nat :=
  match language with
  | some .Python => some 9091
  | some .JavaScript => some 5858
  | some .Java => some 5005
  | _ => none

/-- The `ShellExecutionOptions` env entry of `getHostStartTask` in the unnamed
task-provider source: the worker-arguments variable and its value per detected
language (`pythonCmd` stands for the command obtained from the Python
extension); the default branch leaves the options unset. -/
def hostStartEnv (language : Option ProjectLanguage) (pythonCmd : String) : Option (String × String) :=
  match language with
  | some .Python => some ("languageWorkers__python__arguments", pythonCmd)
  | some .JavaScript =>
    some ("languageWorkers__node__arguments", "--inspect=" ++ toString (5858 : Nat))
  | some .Java =>
    some ("languageWorkers__java__arguments",
      "-agentlib:jdwp=transport=dt_socket,server=y,suspend=n,address=" ++ toString (5005 : Nat))
  | _ => none

end VariantProvider

/-! ### The extension entry point (`src/extension.ts`, `activate`) -/

/-- Tags naming the handler each `registerCommand` call in `activate` binds:
either an imported command function or the inline lambda at that call site. -/
inductive Handler where
  | selectSubscriptionsLambda
  | refreshLambda
  | pickFuncProcessFn
  | loadMoreLambda
  | openInPortalFn
  | createFunctionLambda
  | createNewProjectLambda
  | initProjectForVSCodeLambda
  | createFunctionAppFn
  | startFunctionAppFn
  | stopFunctionAppFn
  | restartFunctionAppFn
  | deleteFunctionAppLambda
  | deployFn
  | configureDeploymentSourceFn
  | copyFunctionUrlFn
  | startStreamingLogsFn
  | stopStreamingLogsFn
  | deleteFunctionLambda
  | appSettingsAddLambda
  | downloadAppSettingsFn
  | uploadAppSettingsFn
  | editAppSettingFn
  | renameAppSettingFn
  | decryptLocalSettingsFn
  | encryptLocalSettingsFn
  | appSettingsDeleteLambda
  | remoteDebugFunctionAppFn
  | deleteProxyLambda
  | installOrUpdateFuncCoreToolsFn
  | uninstallFuncCoreToolsFn
  | redeployDeploymentFn
  | viewDeploymentLogsFn
  | connectToGitHubFn
  | disconnectRepoFn
  | swapSlotFn
  | createSlotLambda
deriving DecidableEq, Repr

/-- A registration `activate` performs against the editor host. -/
inductive Registration where
  | treeData (viewId : String)
  | event (id : String)
  | command (id : String) (h : Handler)
  | funcHostTaskEvents
  | taskProvider (taskType : String)
deriving DecidableEq, Repr

/-- The value `activate` returns: `createApiProvider([])`. -/
inductive ActivateReturn where
  | apiProvider (extensionApis : List String)
deriving DecidableEq, Repr

/-- The registrations `activate` performs, in source order: the tree-data
provider for the explorer view, the workspace-folders validation event, every
`registerCommand` call with its command id and handler, the func-host task
events, and the task provider for task type 'func'. -/
def activateRegistrations : List Registration :=
  [ .treeData "azureFunctionsExplorer"
  , .event "azureFunctions.validateFunctionProjects"
  , .command "azureFunctions.selectSubscriptions" .selectSubscriptionsLambda
  , .command "azureFunctions.refresh" .refreshLambda
  , .command "azureFunctions.pickProcess" .pickFuncProcessFn
  , .command "azureFunctions.loadMore" .loadMoreLambda
  , .command "azureFunctions.openInPortal" .openInPortalFn
  , .command "azureFunctions.createFunction" .createFunctionLambda
  , .command "azureFunctions.createNewProject" .createNewProjectLambda
  , .command "azureFunctions.initProjectForVSCode" .initProjectForVSCodeLambda
  , .command "azureFunctions.createFunctionApp" .createFunctionAppFn
  , .command "azureFunctions.startFunctionApp" .startFunctionAppFn
  , .command "azureFunctions.stopFunctionApp" .stopFunctionAppFn
  , .command "azureFunctions.restartFunctionApp" .restartFunctionAppFn
  , .command "azureFunctions.deleteFunctionApp" .deleteFunctionAppLambda
  , .command "azureFunctions.deploy" .deployFn
  , .command "azureFunctions.configureDeploymentSource" .configureDeploymentSourceFn
  , .command "azureFunctions.copyFunctionUrl" .copyFunctionUrlFn
  , .command "azureFunctions.startStreamingLogs" .startStreamingLogsFn
  , .command "azureFunctions.stopStreamingLogs" .stopStreamingLogsFn
  , .command "azureFunctions.deleteFunction" .deleteFunctionLambda
  , .command "azureFunctions.appSettings.add" .appSettingsAddLambda
  , .command "azureFunctions.appSettings.download" .downloadAppSettingsFn
  , .command "azureFunctions.appSettings.upload" .uploadAppSettingsFn
  , .command "azureFunctions.appSettings.edit" .editAppSettingFn
  , .command "azureFunctions.appSettings.rename" .renameAppSettingFn
  , .command "azureFunctions.appSettings.decrypt" .decryptLocalSettingsFn
  , .command "azureFunctions.appSettings.encrypt" .encryptLocalSettingsFn
  , .command "azureFunctions.appSettings.delete" .appSettingsDeleteLambda
  , .command "azureFunctions.debugFunctionAppOnAzure" .remoteDebugFunctionAppFn
  , .command "azureFunctions.deleteProxy" .deleteProxyLambda
  , .command "azureFunctions.installOrUpdateFuncCoreTools" .installOrUpdateFuncCoreToolsFn
  , .command "azureFunctions.uninstallFuncCoreTools" .uninstallFuncCoreToolsFn
  , .command "azureFunctions.redeploy" .redeployDeploymentFn
  , .command "azureFunctions.viewDeploymentLogs" .viewDeploymentLogsFn
  , .command "azureFunctions.connectToGitHub" .connectToGitHubFn
  , .command "azureFunctions.disconnectRepo" .disconnectRepoFn
  , .command "azureFunctions.swapSlot" .swapSlotFn
  , .command "azureFunctions.createSlot" .createSlotLambda
  , .funcHostTaskEvents
  , .taskProvider "func"
  ]

/-- `activate` as observed through its registrations and return value. -/
def activate : List Registration × ActivateReturn :=
  (activateRegistrations, .apiProvider [])

/-- The command ids registered by a registration list, in order. -/
def commandIds (rs : List Registration) : List String :=
  rs.filterMap fun r =>
    match r with
    | .command i _ => some i
    | _ => none

/-! ## Theorems -/

/-- C3: for every unix pid, `getInnermostUnixPid` rejects with exactly the
error `ps-tree` reports, resolves with the input pid when the reported
descendant list is empty, and otherwise resolves with the `PID` of the last
element of that list; it rejects precisely when `ps-tree` reported an error. -/
theorem getInnermostUnixPid_spec (pid : String) (res : Except String (List PSEntry)) :
    (∀ e, res = .error e → getInnermostUnixPid pid res = .error e) ∧
    (res = .ok [] → getInnermostUnixPid pid res = .ok pid) ∧
    (∀ l c, res = .ok l → l.getLast? = some c → getInnermostUnixPid pid res = .ok c.PID) ∧
    ((∃ e, getInnermostUnixPid pid res = .error e) ↔ ∃ e, res = .error e) := by
  refine ⟨?_, ?_, ?_, ?_⟩
  · intro e he; subst he; rfl
  · intro he; subst he; rfl
  · intro l c hres hlast; subst hres
    simp [getInnermostUnixPid, hlast]
  · cases res with
    | error e => simp [getInnermostUnixPid]
    | ok l =>
      simp only [getInnermostUnixPid]
      cases h : l.getLast? <;> simp

/-- Witness for C3: on the concrete `ps-tree` result `[{PID:"12"},{PID:"34"}]`
the promise resolves with the last child's pid `"34"`. -/
theorem getInnermostUnixPid_spec_witness :
    getInnermostUnixPid "7" (.ok [⟨"12"⟩, ⟨"34"⟩]) = .ok "34" :=
  (getInnermostUnixPid_spec "7" (.ok [⟨"12"⟩, ⟨"34"⟩])).2.2.1
    [⟨"12"⟩, ⟨"34"⟩] ⟨"34"⟩ rfl (by decide)

/-- C5: the code evaluates `isZipDeploy` with the always-true object comparison
`siteConfig !== ScmType.GitHub`, so for a site whose `scmType` is `GitHub` (and
a target node not among the newly created ones) the modal destructive-deployment
prompt is shown even though the claim's condition — `scmType` neither `LocalGit`
nor `GitHub` — is false there. -/
theorem deploy_confirmPrompt_githubBug :
    showsConfirmPrompt [] "node1" ⟨scmTypeGitHub⟩ = true ∧
    showsConfirmPromptSpec [] "node1" ⟨scmTypeGitHub⟩ = false ∧
    isZipDeploy ⟨scmTypeGitHub⟩ = true ∧
    isZipDeploySpec ⟨scmTypeGitHub⟩ = false := by decide

/-- C7: `activate` returns the API provider built over the empty api list, and
its registration sequence registers the task provider for task type 'func',
binds `azureFunctions.deploy`, `azureFunctions.pickProcess` and
`azureFunctions.copyFunctionUrl` to the `deploy`, `pickFuncProcess` and
`copyFunctionUrl` command functions, and registers exactly the
`azureFunctions.*` command identifiers listed in `extension.ts`, in order. -/
theorem activate_registers_commands_and_providers :
    activate.2 = .apiProvider [] ∧
    Registration.taskProvider "func" ∈ activate.1 ∧
    Registration.command "azureFunctions.deploy" .deployFn ∈ activate.1 ∧
    Registration.command "azureFunctions.pickProcess" .pickFuncProcessFn ∈ activate.1 ∧
    Registration.command "azureFunctions.copyFunctionUrl" .copyFunctionUrlFn ∈ activate.1 ∧
    commandIds activate.1 =
      [ "azureFunctions.selectSubscriptions"
      , "azureFunctions.refresh"
      , "azureFunctions.pickProcess"
      , "azureFunctions.loadMore"
      , "azureFunctions.openInPortal"
      , "azureFunctions.createFunction"
      , "azureFunctions.createNewProject"
      , "azureFunctions.initProjectForVSCode"
      , "azureFunctions.createFunctionApp"
      , "azureFunctions.startFunctionApp"
      , "azureFunctions.stopFunctionApp"
      , "azureFunctions.restartFunctionApp"
      , "azureFunctions.deleteFunctionApp"
      , "azureFunctions.deploy"
      , "azureFunctions.configureDeploymentSource"
      , "azureFunctions.copyFunctionUrl"
      , "azureFunctions.startStreamingLogs"
      , "azureFunctions.stopStreamingLogs"
      , "azureFunctions.deleteFunction"
      , "azureFunctions.appSettings.add"
      , "azureFunctions.appSettings.download"
      , "azureFunctions.appSettings.upload"
      , "azureFunctions.appSettings.edit"
      , "azureFunctions.appSettings.rename"
      , "azureFunctions.appSettings.decrypt"
      , "azureFunctions.appSettings.encrypt"
      , "azureFunctions.appSettings.delete"
      , "azureFunctions.debugFunctionAppOnAzure"
      , "azureFunctions.deleteProxy"
      , "azureFunctions.installOrUpdateFuncCoreTools"
      , "azureFunctions.uninstallFuncCoreTools"
      , "azureFunctions.redeploy"
      , "azureFunctions.viewDeploymentLogs"
      , "azureFunctions.connectToGitHub"
      , "azureFunctions.disconnectRepo"
      , "azureFunctions.swapSlot"
      , "azureFunctions.createSlot"
      ] := by decide

/-- C9: the Java deployment path stops the function app, uploads, and — the
start living in the `finally` block — starts the app again whether or not the
upload succeeded; every non-Java language performs the upload with neither a
stop nor a start. -/
theorem deploy_javaStopStartAroundUpload (uploadOk : Bool) :
    (deployCore .Java uploadOk).1 = [.stopApp, .upload, .startApp] ∧
    (∀ language, language ≠ ProjectLanguage.Java →
      (deployCore language uploadOk).1 = [CloudAction.upload]) := by
  refine ⟨rfl, ?_⟩
  intro language h
  cases language <;> simp_all [deployCore]

/-- Witness for C9: with a failing upload, Java still ends with `startApp`,
and JavaScript performs only the upload. -/
theorem deploy_javaStopStartAroundUpload_witness :
    (deployCore .Java false).1 = [.stopApp, .upload, .startApp] ∧
    (deployCore .JavaScript false).1 = [CloudAction.upload] :=
  ⟨(deploy_javaStopStartAroundUpload false).1,
   (deploy_javaStopStartAroundUpload false).2 .JavaScript (by decide)⟩

/-- C10: the JavaScript attach configuration generated by
`JavaScriptProjectCreator.getLaunchJson` uses port 5858, which is the port in
`funcNodeDebugArgs` and the port of the `--inspect=` argument in the node env
variable set on the JavaScript host-start task of `getHostStartTask`. -/
theorem jsDebugPort_consistent :
    (jsGetLaunchJsonConfigs.all fun cfg => cfg.port == 5858) = true ∧
    funcNodeDebugArgs = "--inspect=" ++ toString (5858 : Nat) ∧
    (∀ pythonCmd : String,
      VariantProvider.hostStartEnv (some .JavaScript) pythonCmd =
        some (funcNodeDebugEnvVar, "--inspect=" ++ toString (5858 : Nat))) ∧
    VariantProvider.hostStartPort (some .JavaScript) = some 5858 :=
  ⟨by decide, by decide, fun _ => rfl, rfl⟩

/-- C1 counterexample: the completion wait of `runPreDeployTask` is not bounded
by any timer.  Its promise is built with the `onDidEndTaskProcess` listener as
the only settling path, so on a trace where processes of other tasks end (even
with failures) but the pre-deploy task's own end event never fires, the wait is
still pending — `none` — rather than being ended by a timeout. -/
theorem preDeployWait_noTimer_example :
    preDeployWaitOutcome 0 [⟨1, 1⟩, ⟨2, 3⟩] = none := by decide

/-- C1 amended: the wait in `runPreDeployTask` is settled exactly by the first
process-end event of the pre-deploy task itself, resolving precisely when its
exit code is 0 and rejecting otherwise; end events of other tasks never settle
it and no timer exists, so the wait is pending on any trace without such an
event. -/
theorem preDeployWait_settledOnlyByTaskEnd (ref : Nat) (events : List TaskProcessEndEvent) :
    (preDeployWaitOutcome ref events = none ↔ ∀ e ∈ events, e.taskRef ≠ ref) ∧
    (∀ pre e post, (∀ x ∈ pre, x.taskRef ≠ ref) → e.taskRef = ref →
      preDeployWaitOutcome ref (pre ++ e :: post) = some (e.exitCode == 0)) := by
  constructor
  · induction events with
    | nil => simp [preDeployWaitOutcome]
    | cons e rest ih =>
      by_cases h : e.taskRef = ref
      · simp [preDeployWaitOutcome, h]
      · have hbeq : (e.taskRef == ref) = false := by simpa using h
        simp [preDeployWaitOutcome, hbeq, ih, h]
  · intro pre e post hpre he
    induction pre with
    | nil => simp [preDeployWaitOutcome, he]
    | cons x rest ih =>
      have hx : x.taskRef ≠ ref := hpre x (by simp)
      have hbeq : (x.taskRef == ref) = false := by simpa using hx
      simpa [preDeployWaitOutcome, hbeq] using ih fun y hy => hpre y (by simp [hy])

/-- Witness for C1's amended theorem: after an unrelated task fails, the
pre-deploy task's own end event with exit code 0 resolves the wait. -/
theorem preDeployWait_settledOnlyByTaskEnd_witness :
    preDeployWaitOutcome 5 ([⟨1, 1⟩] ++ ⟨5, 0⟩ :: [⟨5, 2⟩]) = some true :=
  (preDeployWait_settledOnlyByTaskEnd 5 ([⟨1, 1⟩] ++ ⟨5, 0⟩ :: [⟨5, 2⟩])).2
    [⟨1, 1⟩] ⟨5, 0⟩ [⟨5, 2⟩] (by decide) rfl

/-- C8: for a zip deploy with no matching pre-deploy task in the fetched task
list, a task name explicitly configured in the `preDeployTask` setting makes
`runPreDeployTask` throw — and the thrown error aborts the deployment before
any cloud action, in particular before the upload — while an inferred task
name only logs the warning and lets the deployment continue. -/
theorem runPreDeployTask_notFound (s : String) (language : ProjectLanguage)
    (runtime : ProjectRuntime) (tasks : List VTask) (deployFsPath : List String)
    (exitCode : VTask → Int) (uploadOk : Bool)
    (hs : s ≠ "") (hfind : findPreDeployTask s deployFsPath tasks = none) :
    (runPreDeployTask (some s) true language runtime tasks deployFsPath exitCode =
        .noTaskErrorThrown ∧
      deployAfterConfirm
        (runPreDeployTask (some s) true language runtime tasks deployFsPath exitCode)
        language uploadOk = ([], false)) ∧
    (∀ inferred, inferTaskName language runtime = some inferred →
      findPreDeployTask inferred deployFsPath tasks = none →
      runPreDeployTask none true language runtime tasks deployFsPath exitCode =
        .noTaskWarned) := by
  have hbeq : (s == "") = false := by simpa using hs
  constructor
  · have h1 : runPreDeployTask (some s) true language runtime tasks deployFsPath exitCode =
        .noTaskErrorThrown := by
      simp [runPreDeployTask, hbeq, hfind]
    exact ⟨h1, by rw [h1]; rfl⟩
  · intro inferred hinf hfind2
    simp [runPreDeployTask, hinf, hfind2]

/-- Witness for C8: with an empty task list, the configured name "mytask"
throws while the inferred JavaScript v2 name only warns. -/
theorem runPreDeployTask_notFound_witness :
    runPreDeployTask (some "mytask") true .JavaScript .v2 [] [] (fun _ => 0) =
        .noTaskErrorThrown ∧
    runPreDeployTask none true .JavaScript .v2 [] [] (fun _ => 0) = .noTaskWarned :=
  ⟨((runPreDeployTask_notFound "mytask" .JavaScript .v2 [] [] (fun _ => 0) true
      (by decide) (by decide)).1).1,
   (runPreDeployTask_notFound "mytask" .JavaScript .v2 [] [] (fun _ => 0) true
      (by decide) (by decide)).2 extInstallTaskName rfl (by decide)⟩

/-- C4 counterexample: a workspace with one folder of detected language
JavaScript gets exactly the host-start task from
`FuncTaskProvider.provideTasks` — no task descriptor installing the CLI tool
(`func extensions install`) is emitted, contradicting the claim that start and
install tasks are provided per detected language. -/
theorem provideTasks_noInstall_example :
    provideTasks (some [⟨"proj"⟩]) (fun _ => some .JavaScript) (fun _ => "5858") =
      [hostStartTaskFor ⟨"proj"⟩ "5858"] ∧
    hasInstallTask
      (provideTasks (some [⟨"proj"⟩]) (fun _ => some .JavaScript) (fun _ => "5858")) = false := by
  decide

/-- Helper: each folder's contribution matches the per-language description. -/
theorem provideTasksFolderCase_eq_contribution
    (detect : WorkspaceFolder → Option ProjectLanguage)
    (nodeDebugPort : WorkspaceFolder → String) (folder : WorkspaceFolder) :
    provideTasksFolderCase detect nodeDebugPort folder =
      folderContribution detect nodeDebugPort folder := by
  cases h : detect folder with
  | none => simp [provideTasksFolderCase, folderContribution, h]
  | some lang => cases lang <;> simp [provideTasksFolderCase, folderContribution, h]

/-- C4 amended: with no workspace folders `provideTasks` emits nothing; with
folders, each folder contributes exactly one host-start task descriptor when
its detected project language is JavaScript, Java or CSharp and nothing for
any other detection result, the descriptor being determined by the folder and
its `nodeDebugPort` setting; no install task is ever emitted. -/
theorem provideTasks_hostStartOnly (fs : List WorkspaceFolder)
    (detect : WorkspaceFolder → Option ProjectLanguage)
    (nodeDebugPort : WorkspaceFolder → String) :
    provideTasks none detect nodeDebugPort = [] ∧
    provideTasks (some fs) detect nodeDebugPort =
      fs.flatMap (folderContribution detect nodeDebugPort) ∧
    hasInstallTask (provideTasks (some fs) detect nodeDebugPort) = false := by
  refine ⟨rfl, ?_, ?_⟩
  · simp only [provideTasks]
    rw [funext (provideTasksFolderCase_eq_contribution detect nodeDebugPort)]
  · induction fs with
    | nil => rfl
    | cons folder rest ih =>
      simp only [provideTasks, List.flatMap_cons, hasInstallTask, List.any_append,
        Bool.or_eq_false_iff] at *
      refine ⟨?_, ih⟩
      cases h : detect folder with
      | none => simp [provideTasksFolderCase, h]
      | some lang => cases lang <;> simp [provideTasksFolderCase, h, hostStartTaskFor]

/-- Helper: an event `startFuncTask`'s race ignores leaves the wait unchanged. -/
theorem startFuncTask_cons_ignored (n t : Nat) (e : FuncEvent)
    (rest : List (Nat × FuncEvent)) (h : eventIgnored n (t, e) = true) :
    startFuncTask n ((t, e) :: rest) = startFuncTask n rest := by
  simp only [eventIgnored, Bool.and_eq_true, decide_eq_true_eq] at h
  obtain ⟨ht, he⟩ := h
  cases e with
  | procStart isHost pid =>
    have hh : isHost = false := by simpa using he
    subst hh
    simp [startFuncTask, ht]
  | procEnd name code =>
    have hc : code = 0 := by simpa using he
    subst hc
    simp [startFuncTask, ht]

/-- Helper: a run of ignored events can be skipped. -/
theorem startFuncTask_append_ignored (n : Nat) (pre l : List (Nat × FuncEvent))
    (hpre : ∀ p ∈ pre, eventIgnored n p = true) :
    startFuncTask n (pre ++ l) = startFuncTask n l := by
  induction pre with
  | nil => rfl
  | cons p rest ih =>
    obtain ⟨t, e⟩ := p
    rw [List.cons_append, startFuncTask_cons_ignored n t e (rest ++ l) (hpre (t, e) (by simp))]
    exact ih fun q hq => hpre q (by simp [hq])

/-- C6: `startFuncTask`'s wait is a race settled by the first relevant point in
time — it resolves with the host task's process id (as a string) at a func-host
process-start event inside the `timeoutInSeconds * 1000` ms window, rejects
with the task-failure data at any task's process-end event with nonzero exit
code inside the window, and rejects by timeout when no further event precedes
the deadline or the next event falls at or after it. -/
theorem startFuncTask_race (n : Nat) (pre : List (Nat × FuncEvent))
    (hpre : ∀ p ∈ pre, eventIgnored n p = true) :
    (∀ t pid post, t < n * 1000 →
      startFuncTask n (pre ++ (t, .procStart true pid) :: post) = .started (toString pid)) ∧
    (∀ t name code post, t < n * 1000 → code ≠ 0 →
      startFuncTask n (pre ++ (t, .procEnd name code) :: post) = .taskFailed name code) ∧
    startFuncTask n pre = .timedOut ∧
    (∀ t e post, n * 1000 ≤ t →
      startFuncTask n (pre ++ (t, e) :: post) = .timedOut) := by
  refine ⟨?_, ?_, ?_, ?_⟩
  · intro t pid post ht
    rw [startFuncTask_append_ignored n pre _ hpre]
    simp [startFuncTask, ht]
  · intro t name code post ht hc
    rw [startFuncTask_append_ignored n pre _ hpre]
    have hb : (code != 0) = true := by simpa using hc
    simp [startFuncTask, ht, hb]
  · simpa using startFuncTask_append_ignored n pre [] hpre
  · intro t e post ht
    rw [startFuncTask_append_ignored n pre _ hpre]
    have hn : ¬ (t < n * 1000) := by omega
    simp [startFuncTask, hn]

/-- Witness for C6: a one-second window, a successful build task ending at
10 ms, then the func host's process starting at 20 ms resolves with pid "42". -/
theorem startFuncTask_race_witness :
    startFuncTask 1 ([(10, .procEnd "build" 0)] ++ (20, .procStart true 42) :: []) =
      .started (toString (42 : Nat)) :=
  (startFuncTask_race 1 [(10, .procEnd "build" 0)] (by decide)).1 20 42 [] (by decide)

/-- Helper: an in-time poll that fetched a tree with a non-func first-child
leaf makes `getInnermostWindowsPid` retry. -/
theorem getInnermostWindowsPid_cons_continues (maxTime now : Nat)
    (fetched : Option ProcTreeNode) (rest : List (Nat × Option ProcTreeNode))
    (h : pollContinues maxTime (now, fetched) = true) :
    getInnermostWindowsPid maxTime ((now, fetched) :: rest) =
      getInnermostWindowsPid maxTime rest := by
  simp only [pollContinues, Bool.and_eq_true, decide_eq_true_eq] at h
  obtain ⟨ht, hf⟩ := h
  cases fetched with
  | none => simp at hf
  | some tr =>
    have hfb : nameHasFunc (firstChildLeaf tr).name = false := by simpa using hf
    simp [getInnermostWindowsPid, ht, hfb]

/-- Helper: a run of retrying polls can be skipped. -/
theorem getInnermostWindowsPid_append_continues (maxTime : Nat)
    (pre l : List (Nat × Option ProcTreeNode))
    (hpre : ∀ p ∈ pre, pollContinues maxTime p = true) :
    getInnermostWindowsPid maxTime (pre ++ l) = getInnermostWindowsPid maxTime l := by
  induction pre with
  | nil => rfl
  | cons p rest ih =>
    obtain ⟨now, fetched⟩ := p
    rw [List.cons_append,
      getInnermostWindowsPid_cons_continues maxTime now fetched (rest ++ l)
        (hpre (now, fetched) (by simp))]
    exact ih fun q hq => hpre q (by simp [hq])

/-- C2: after any run of in-time polls whose fetched trees have first-child
leaves without "func" in their names, `getInnermostWindowsPid` returns the
first-child leaf's pid as a string at the first in-time poll whose leaf name
contains "func" case-insensitively, throws the "Functions host is no longer
running" error at the first in-time poll whose tree fetch yields nothing, and
throws the caller's timeout error as soon as the clock reaches the deadline
`maxTime` (the start time plus `timeoutInSeconds * 1000`). -/
theorem getInnermostWindowsPid_spec (maxTime : Nat)
    (pre : List (Nat × Option ProcTreeNode))
    (hpre : ∀ p ∈ pre, pollContinues maxTime p = true) :
    (∀ now tr post, now < maxTime → nameHasFunc (firstChildLeaf tr).name = true →
      getInnermostWindowsPid maxTime (pre ++ (now, some tr) :: post) =
        some (.found (toString (firstChildLeaf tr).pid))) ∧
    (∀ now post, now < maxTime →
      getInnermostWindowsPid maxTime (pre ++ (now, none) :: post) = some .hostStopped) ∧
    (∀ now r post, maxTime ≤ now →
      getInnermostWindowsPid maxTime (pre ++ (now, r) :: post) = some .timedOut) := by
  refine ⟨?_, ?_, ?_⟩
  · intro now tr post hnow hfunc
    rw [getInnermostWindowsPid_append_continues maxTime pre _ hpre]
    simp [getInnermostWindowsPid, hnow, hfunc]
  · intro now post hnow
    rw [getInnermostWindowsPid_append_continues maxTime pre _ hpre]
    simp [getInnermostWindowsPid, hnow]
  · intro now r post hnow
    rw [getInnermostWindowsPid_append_continues maxTime pre _ hpre]
    have hn : ¬ (now < maxTime) := by omega
    simp [getInnermostWindowsPid, hn]

/-- Witness for C2: an in-time poll seeing a childless "powershell" node
retries; the next poll's tree descends to the leaf "Func.exe", whose pid 3 is
returned as "3". -/
theorem getInnermostWindowsPid_spec_witness :
    getInnermostWindowsPid 1000
      ([(0, some (.mk 1 "powershell" []))] ++
        (5, some (.mk 2 "cmd" [.mk 3 "Func.exe" []])) :: []) =
      some (.found (toString (3 : Nat))) :=
  (getInnermostWindowsPid_spec 1000 [(0, some (.mk 1 "powershell" []))] (by decide)).1
    5 (.mk 2 "cmd" [.mk 3 "Func.exe" []]) [] (by decide) (by decide)

end AzFunc
